import Mathlib

/-!
Verification of the pix2pix model construction module
(sciencebeam_gym/trainer/models/pix2pix/pix2pix_model.py).

Tensors are shallowly embedded as nested lists; uint8 channel values become
naturals, floating point channel values become rationals.  TensorFlow graph
operations used by the module are modelled by the pointwise functions they
denote.
-/

attribute [local semireducible] Rat.mul Rat.add Rat.sub Rat.inv Rat.ofScientific

namespace Pix2Pix

/-- An RGB pixel with integer channel values (uint8 in the program). -/
abbrev NPix : Type := ℕ × ℕ × ℕ

/-- An RGB pixel with floating point channel values, modelled as rationals. -/
abbrev QPix : Type := ℚ × ℚ × ℚ

/-- An integer RGB image: a height-by-width grid of integer pixels. -/
abbrev NImage : Type := List (List NPix)

/-- Pixel access with a default, standing for index lookup into an image. -/
def pixAt (img : NImage) (h w : ℕ) : NPix :=
  (img.getD h []).getD w (0, 0, 0)

/-- Models colors_to_dimensions (pix2pix_model.py lines 63-77).  For each
color in colors, tf.reduce_all(tf.equal(image_tensor, color), axis minus one)
gives the (H, W) boolean mask of pixels exactly equal to that color, and
tf.where(mask, fill 1.0, fill 0.0) turns it into a float mask; the per-color
masks are then stacked along a new last axis, so the result has shape
(H, W, len(colors)) with entry (h, w, c) equal to 1.0 when pixel (h, w)
equals colors[c] and 0.0 otherwise. -/
def colors_to_dimensions (image_tensor : NImage) (colors : List NPix) :
    List (List (List ℚ)) :=
  let single_label_tensors : List (List (List ℚ)) :=
    colors.map (fun single_label_color =>
      image_tensor.map (fun row =>
        row.map (fun px => if px = single_label_color then (1 : ℚ) else 0)))
  (List.range image_tensor.length).map (fun h =>
    (List.range ((image_tensor.getD h []).length)).map (fun w =>
      single_label_tensors.map (fun t => (t.getD h []).getD w 0)))

/-- A float image batch of shape (batch, height, width) with float RGB pixels,
as produced by batch_dimensions_to_colors_list. -/
abbrev QBatch : Type := List (List (List QPix))

/-- A uint8 image batch of shape (batch, height, width) with integer RGB
pixels. -/
abbrev NBatch : Type := List (List (List NPix))

/-- Float pixel access with default (0, 0, 0). -/
def qpixAt (t : QBatch) (b h w : ℕ) : QPix :=
  ((t.getD b []).getD h []).getD w (0, 0, 0)

/-- Integer pixel access with default (0, 0, 0). -/
def npixAt (t : NBatch) (b h w : ℕ) : NPix :=
  ((t.getD b []).getD h []).getD w (0, 0, 0)

/-- Saturating conversion of one float channel value to a uint8 value,
modelling tf.image.convert_image_dtype(image, tf.uint8, saturate=True) on one
element: TensorFlow multiplies by dtype.max + 0.5 = 255.5 and saturate-casts,
clamping to [0, 255] and truncating toward zero. -/
def convertChannel (q : ℚ) : ℕ := (min 255 (max 0 (q * (511 / 2)).floor)).toNat

/-- Saturating conversion of one float pixel to a uint8 pixel. -/
def convertPix (p : QPix) : NPix :=
  (convertChannel p.1, convertChannel p.2.1, convertChannel p.2.2)

/-- Models convert_image (lines 95-100): elementwise saturating dtype
conversion of a float image batch to a uint8 image batch. -/
def convert_image (image_tensor : QBatch) : NBatch :=
  image_tensor.map (fun im => im.map (fun row => row.map convertPix))

/-- Models replace_black_with_white_color (lines 110-120): is_black is the
channel-axis reduction of tf.equal(image_tensor, (0, 0, 0)), stacked back to
3 channels, and tf.where(is_black, 255 * ones_like(image_tensor),
image_tensor) replaces exactly the pure black pixels with white. -/
def replace_black_with_white_color (image_tensor : NBatch) : NBatch :=
  image_tensor.map (fun im => im.map (fun row => row.map (fun px =>
    if px = (0, 0, 0) then ((255 : ℕ), (255 : ℕ), (255 : ℕ)) else px)))

/-- Elementwise addition of two float pixels. -/
def addQPix (a b : QPix) : QPix := (a.1 + b.1, a.2.1 + b.2.1, a.2.2 + b.2.2)

/-- Elementwise addition of two float image batches. -/
def addQBatch (a b : QBatch) : QBatch :=
  List.zipWith (List.zipWith (List.zipWith addQPix)) a b

/-- Python reduce with a binary operation and no initial value; reduce of an
empty sequence raises in Python, modelled as none. -/
def reduce1 {α : Type} (f : α → α → α) : List α → Option α
  | [] => none
  | x :: xs => some (xs.foldl f x)

/-- Models combine_image (lines 122-131): the weighted images are summed with
reduce(lambda a, b: a + b, batch_images), converted to a uint8 image, and,
when the replace_black_with_white flag (a Python keyword argument defaulting
to False) is set, pure black pixels of the result are replaced with white. -/
def combine_image (batch_images : List QBatch) (replace_black_with_white : Bool) :
    Option NBatch :=
  (reduce1 addQBatch batch_images).map (fun s =>
    let combined_image := convert_image s
    if replace_black_with_white then replace_black_with_white_color combined_image
    else combined_image)

/-- Shape predicate for a float image batch: batch size B, height H, width W. -/
def batchHasShape (t : QBatch) (B H W : ℕ) : Prop :=
  t.length = B ∧ ∀ b < B, (t.getD b []).length = H ∧
    ∀ h < H, ((t.getD b []).getD h []).length = W

instance (t : QBatch) (B H W : ℕ) : Decidable (batchHasShape t B H W) := by
  unfold batchHasShape
  infer_instance

/-- A constant uint8 image batch. -/
def constNBatch (B H W : ℕ) (p : NPix) : NBatch :=
  List.replicate B (List.replicate H (List.replicate W p))

/-- The all-zero float image batch (every pixel weighted to zero). -/
def zeroQBatch (B H W : ℕ) : QBatch :=
  List.replicate B (List.replicate H (List.replicate W ((0 : ℚ), (0 : ℚ), (0 : ℚ))))

/-- A batched multi-channel mask tensor of shape (batch, height, width,
channels), the shape of the separate-channel annotation tensor and of the
model prediction. -/
abbrev CBatch : Type := List (List (List (List ℚ)))

/-- Models batch_dimensions_to_colors_list (lines 79-89): for each dimension
index i with color single_label_color, slice channel i of the batched mask
tensor, tf.expand_dims it on a trailing axis, and multiply by the broadcast
list [x / 255.0 for x in single_label_color], giving a float RGB image batch
weighted by that color. -/
def batch_dimensions_to_colors_list (image_tensor : CBatch) (colors : List NPix) :
    List QBatch :=
  colors.enum.map (fun ic =>
    image_tensor.map (fun im => im.map (fun row => row.map (fun chans =>
      (chans.getD ic.1 0 * ((ic.2.1 : ℚ) / 255),
       chans.getD ic.1 0 * ((ic.2.2.1 : ℚ) / 255),
       chans.getD ic.1 0 * ((ic.2.2.2 : ℚ) / 255))))))

/-- Python dict lookup in an association list; keys of the modelled dicts are
unique, so first-binding-wins agrees with dict semantics. -/
def lookupA {κ α : Type} [DecidableEq κ] (k : κ) : List (κ × α) → Option α
  | [] => none
  | e :: rest => if e.1 = k then some e.2 else lookupA k rest

/-- Python truthiness applied to an optional label as in
`dimension_label if dimension_label else "unknown_label"`: None and the
empty string are falsy. -/
def labelOrUnknown (lbl : Option String) : String :=
  match lbl with
  | some s => if s = "" then "unknown_label" else s
  | none => "unknown_label"

/-- Models the image_tensors entries produced by add_model_summary_images
(lines 133-186) in the branch where dimension_colors is nonempty (the Python
`if dimension_colors:`): the input and target renderings, the per-dimension
targets and outputs images, and the targets_combined and outputs_combined
composites, both of which call combine_image without the
replace_black_with_white keyword, that is with its default False.  The
uint8-to-uint8 dtype conversion on the integer target image is the identity,
so the target entry stores the annotation tensor unchanged.  A none value
stands for the Python TypeError that reduce would raise on an empty color
list, unreachable in this branch. -/
def add_model_summary_images_with_colors (image_tensor : QBatch)
    (annotation_tensor : NBatch) (separate_channel_annotation_tensor : CBatch)
    (pred : CBatch) (dimension_colors : List NPix)
    (dimension_labels : List (Option String)) : List (String × Option NBatch) :=
  let targets_batch_images :=
    batch_dimensions_to_colors_list separate_channel_annotation_tensor dimension_colors
  let outputs_batch_images := batch_dimensions_to_colors_list pred dimension_colors
  [("input", some (convert_image image_tensor)),
   ("target", some annotation_tensor)] ++
  (targets_batch_images.zip dimension_labels).enum.map (fun ie =>
    ("targets_" ++ toString ie.1 ++ "_" ++ labelOrUnknown ie.2.2,
      some (convert_image ie.2.1))) ++
  [("targets_combined", combine_image targets_batch_images false)] ++
  (outputs_batch_images.zip dimension_labels).enum.map (fun ie =>
    ("outputs_" ++ toString ie.1 ++ "_" ++ labelOrUnknown ie.2.2,
      some (convert_image ie.2.1))) ++
  [("outputs_combined", combine_image outputs_batch_images false)]

/-- The two Python exception classes caught by format_metric_values. -/
inductive PyErr : Type
  | typeError : PyErr
  | indexError : PyErr
deriving DecidableEq

/-- A metric element: some q is a numeric value, none is a value such as
Python None that the %.3f format operator rejects with a TypeError. -/
abbrev MetricValue : Type := Option ℚ

/-- Python subscription metric_values[i]: subscripting None raises TypeError
and subscripting a list out of range raises IndexError. -/
def subscript (metric_values : Option (List MetricValue)) (i : ℕ) :
    Except PyErr MetricValue :=
  match metric_values with
  | none => .error .typeError
  | some l =>
    match l.get? i with
    | some v => .ok v
    | none => .error .indexError

/-- Left-pad the 3-digit fractional part with zeros. -/
def pad3 (n : ℕ) : String :=
  if n < 10 then "00" ++ toString n
  else if n < 100 then "0" ++ toString n
  else toString n

/-- Fixed-point rendering of a nonnegative rational with 3 fractional digits,
rounding to nearest as the %.3f format does. -/
def formatFixed3Nonneg (q : ℚ) : String :=
  let m := ((q * 1000 + 1 / 2).floor).toNat
  toString (m / 1000) ++ "." ++ pad3 (m % 1000)

/-- Fixed-point rendering of a rational with 3 fractional digits. -/
def formatFixed3 (q : ℚ) : String :=
  if q < 0 then "-" ++ formatFixed3Nonneg (-q) else formatFixed3Nonneg q

/-- Python formatting "%.3f" % v: a numeric value is rendered with 3
fractional digits; a non-numeric value raises TypeError. -/
def fmt3 (v : MetricValue) : Except PyErr String :=
  match v with
  | some q => .ok (formatFixed3 q)
  | none => .error .typeError

/-- Models Model.format_metric_values (lines 327-339).  loss_str and
accuracy_str both start as "N/A"; the try block first formats
metric_values[0] into loss_str and then metric_values[1] into accuracy_str;
a TypeError or IndexError aborts the block, keeping the assignments made so
far; the function then returns "loss_str, accuracy_str". -/
def format_metric_values (metric_values : Option (List MetricValue)) : String :=
  let loss_str := "N/A"
  let accuracy_str := "N/A"
  match subscript metric_values 0 >>= fmt3 with
  | .error _ => loss_str ++ ", " ++ accuracy_str
  | .ok s0 =>
    match subscript metric_values 1 >>= fmt3 with
    | .error _ => s0 ++ ", " ++ accuracy_str
    | .ok s1 => s0 ++ ", " ++ s1

/-- Models the GraphMode constants (lines 30-33). -/
inductive GraphMode : Type
  | TRAIN : GraphMode
  | EVALUATE : GraphMode
  | PREDICT : GraphMode
deriving DecidableEq

/-- The reader configuration that build_graph passes to read_examples. -/
structure ReaderConfig : Type where
  shuffle : Bool
  num_epochs : Option ℕ
deriving DecidableEq

/-- Models the reader call in Model.build_graph (lines 211-224): with
nonempty data_paths, read_examples is called with shuffle set to
(graph_mode == TRAIN) and num_epochs set to None when is_training else 2,
where is_training holds for both TRAIN and EVALUATE. -/
def build_graph_reader_config (graph_mode : GraphMode) : ReaderConfig :=
  let is_training :=
    graph_mode == GraphMode.TRAIN || graph_mode == GraphMode.EVALUATE
  ⟨graph_mode == GraphMode.TRAIN, if is_training then none else some 2⟩

/-- Modelled from the spec: read_examples (sciencebeam_gym.trainer.util, a
collaborator outside src/) yields a lazy sequence of records from the
dataset; with num_epochs = some e the sequence is bounded to exactly e full
passes over the data and then ends, and with num_epochs = none it repeats
indefinitely.  Yield i returns the (i mod n)-th of the n records; shuffling
only permutes each pass and is abstracted away from the yield order. -/
def read_examples_yield {α : Type} (data : List α) (num_epochs : Option ℕ)
    (i : ℕ) : Option α :=
  match num_epochs with
  | none => data.get? (i % data.length)
  | some e => if i < e * data.length then data.get? (i % data.length) else none

/-- A FixedLenFeature entry of the example schema: scalar string dtype with
an optional default value used when the field is absent from an example. -/
structure FixedLenFeature : Type where
  default_value : Option String
deriving DecidableEq

/-- Models the feature_map built in Model.build_graph (lines 228-245):
input_uri and annotation_uri are optional strings defaulting to the empty
string, while input_image and annotation_image are required encoded-PNG
string fields with no default. -/
def feature_map : List (String × FixedLenFeature) :=
  [("input_uri", ⟨some ""⟩),
   ("annotation_uri", ⟨some ""⟩),
   ("input_image", ⟨none⟩),
   ("annotation_image", ⟨none⟩)]

/-- Models tf.parse_single_example restricted to scalar string
FixedLenFeature entries, per its documented semantics: each configured
feature reads the value present in the serialized example, falls back to the
default when the field is absent, and is a fatal parse error (modelled as
Except.error naming the field) when a required field is missing.  The error
propagates: build_graph installs no handler around the call at line 247. -/
def parse_single_example (ex : List (String × String)) :
    List (String × FixedLenFeature) → Except String (List (String × String))
  | [] => .ok []
  | nf :: rest =>
    match lookupA nf.1 ex, nf.2.default_value with
    | some v, _ => (parse_single_example ex rest).map (fun tl => (nf.1, v) :: tl)
    | none, some d => (parse_single_example ex rest).map (fun tl => (nf.1, d) :: tl)
    | none, none => .error nf.1

/-- Python tuple comparison on RGB triples: lexicographic numeric order, the
order used by sorted() on the color map keys. -/
def lexLeP (a b : NPix) : Prop :=
  a.1 < b.1 ∨ (a.1 = b.1 ∧ (a.2.1 < b.2.1 ∨ (a.2.1 = b.2.1 ∧ a.2.2 ≤ b.2.2)))

instance (a b : NPix) : Decidable (lexLeP a b) := by
  unfold lexLeP
  infer_instance

/-- Boolean form of the tuple order, used by mergeSort. -/
def lexLe (a b : NPix) : Bool := decide (lexLeP a b)

instance : IsAntisymm NPix (fun a b => lexLe a b = true) where
  antisymm a b h1 h2 := by
    have p1 : lexLeP a b := of_decide_eq_true h1
    have p2 : lexLeP b a := of_decide_eq_true h2
    obtain ⟨a1, a2, a3⟩ := a
    obtain ⟨b1, b2, b3⟩ := b
    unfold lexLeP at p1 p2
    dsimp only at p1 p2
    simp only [Prod.mk.injEq]
    omega

/-- Models the dimension setup in Model.__init__ (lines 196-209).  The color
map returned by the external parser and the color_labels section are given as
association lists holding the dict contents in an arbitrary iteration order;
sorted(six.iterkeys(color_map)) sorts the keys in numeric tuple order, and
dimension_colors and dimension_labels read the color values and the optional
labels off in that key order. -/
def model_init_dimensions (color_map : List (NPix × NPix))
    (color_label_map : List (NPix × String)) : List NPix × List (Option String) :=
  let sorted_keys := (color_map.map Prod.fst).mergeSort lexLe
  (sorted_keys.map (fun k => (lookupA k color_map).getD (0, 0, 0)),
   sorted_keys.map (fun k => lookupA k color_label_map))

/-- Center crop or pad on one axis: TensorFlow crops (n - t) / 2 elements
from the leading side when the source extent n exceeds the target t, and
pads (t - n) / 2 default elements on the leading side when it is smaller.
Returns the source index supplying output position i, or none where the
output is padding. -/
def cropOrPadIndex (n t i : ℕ) : Option ℕ :=
  if t ≤ n then some (i + (n - t) / 2)
  else if i < (t - n) / 2 then none
  else if i - (t - n) / 2 < n then some (i - (t - n) / 2)
  else none

/-- Models tf.image.resize_image_with_crop_or_pad on one decoded image, with
zero (black) padding. -/
def resize_image_with_crop_or_pad (img : NImage) (target_height target_width : ℕ) :
    NImage :=
  (List.range target_height).map (fun i =>
    (List.range target_width).map (fun j =>
      match cropOrPadIndex img.length target_height i with
      | none => (0, 0, 0)
      | some si =>
        match img.get? si with
        | none => (0, 0, 0)
        | some row =>
          match cropOrPadIndex row.length target_width j with
          | none => (0, 0, 0)
          | some sj => row.getD sj (0, 0, 0)))

/-- Models tf.image.convert_image_dtype(image, tf.float32) on a uint8 image:
integer channel values are scaled into [0, 1] by dividing by 255. -/
def convert_image_to_float (img : NImage) : List (List QPix) :=
  img.map (fun row => row.map (fun p =>
    ((p.1 : ℚ) / 255, (p.2.1 : ℚ) / 255, (p.2.2 : ℚ) / 255)))

/-- A parsed serialized example: the four schema fields, the image fields
holding encoded PNG bytes. -/
structure ParsedExample : Type where
  input_uri : String
  annotation_uri : String
  input_image : String
  annotation_image : String

/-- The five per-example tensors assembled by build_graph before batching.
The annotation tensor and the separate-channel target are kept polymorphic
because their dtype depends on whether a color map is configured. -/
structure PerExampleTensors (α β : Type) : Type where
  input_uri : String
  annotation_uri : String
  image_tensor : List (List QPix)
  annotation_tensor : α
  separate_channel_annotation_tensor : β

/-- Models the per-example pipeline of Model.build_graph (lines 249-278) when
dimension_colors is configured: both fields are decoded as 3-channel PNG
images (decode_png is a parameter standing for the TensorFlow decoder), the
input image is crop-or-padded to 256x256 and converted to float, the
annotation image is crop-or-padded and stays integer, and the
separate-channel target is colors_to_dimensions of the annotation. -/
def process_example_with_colors (decode_png : String → NImage)
    (dimension_colors : List NPix) (p : ParsedExample) :
    PerExampleTensors NImage (List (List (List ℚ))) :=
  let image_tensor := resize_image_with_crop_or_pad (decode_png p.input_image) 256 256
  let annotation_tensor :=
    resize_image_with_crop_or_pad (decode_png p.annotation_image) 256 256
  ⟨p.input_uri, p.annotation_uri, convert_image_to_float image_tensor,
    annotation_tensor, colors_to_dimensions annotation_tensor dimension_colors⟩

/-- Models the same per-example pipeline when no color map is configured
(lines 276-278): the crop-or-padded annotation image is converted to float
and used as both the annotation tensor and the target. -/
def process_example_no_colors (decode_png : String → NImage) (p : ParsedExample) :
    PerExampleTensors (List (List QPix)) (List (List QPix)) :=
  let image_tensor := resize_image_with_crop_or_pad (decode_png p.input_image) 256 256
  let annotation_tensor :=
    convert_image_to_float
      (resize_image_with_crop_or_pad (decode_png p.annotation_image) 256 256)
  ⟨p.input_uri, p.annotation_uri, convert_image_to_float image_tensor,
    annotation_tensor, annotation_tensor⟩

/-- Models tf.train.batch as called in build_graph (lines 280-295) with the
single list of all five per-example tensors: the queue dequeues the joined
tuples in order and emits full batches of batch_size consecutive tuples,
all five components advancing in lockstep; a final partial batch is not
emitted since allow_smaller_final_batch defaults to False. -/
def tf_train_batch {α β : Type} (items : List (PerExampleTensors α β))
    (batch_size : ℕ) :
    List (List String × List String × List (List (List QPix)) × List α × List β) :=
  (List.range (items.length / batch_size)).map (fun k =>
    let chunk := (items.drop (k * batch_size)).take batch_size
    (chunk.map (fun t => t.input_uri),
     chunk.map (fun t => t.annotation_uri),
     chunk.map (fun t => t.image_tensor),
     chunk.map (fun t => t.annotation_tensor),
     chunk.map (fun t => t.separate_channel_annotation_tensor)))

/-- The batched graph outputs of build_graph over a stream of parsed records,
in the configuration with a color map. -/
def build_graph_batches_with_colors (decode_png : String → NImage)
    (dimension_colors : List NPix) (records : List ParsedExample)
    (batch_size : ℕ) :
    List (List String × List String × List (List (List QPix)) × List NImage ×
      List (List (List (List ℚ)))) :=
  tf_train_batch (records.map (process_example_with_colors decode_png dimension_colors))
    batch_size

/-- Indexing a mapped list inside its range applies the function to the
corresponding element of the original list. -/
theorem getD_map_lt {α β : Type} (f : α → β) (l : List α) {i : ℕ} (h : i < l.length)
    (d : β) (d2 : α) : (l.map f).getD i d = f (l.getD i d2) := by
  rw [List.getD_eq_getElem?_getD, List.getD_eq_getElem?_getD, List.getElem?_map,
      List.getElem?_eq_getElem h]
  rfl

/-- Indexing List.range inside its range returns the index. -/
theorem getD_range_lt {n i : ℕ} (h : i < n) (d : ℕ) : (List.range n).getD i d = i := by
  simp [List.getD, List.getElem?_range, h]

/-- In-range default indexing returns a member of the list. -/
theorem getD_mem {α : Type} {l : List α} {i : ℕ} (h : i < l.length) (d : α) :
    l.getD i d ∈ l := by
  rw [List.getD_eq_getElem?_getD, List.getElem?_eq_getElem h]
  exact List.getElem_mem h

/-- Out-of-range default indexing returns the default. -/
theorem getD_ge {α : Type} {l : List α} {i : ℕ} (h : l.length ≤ i) (d : α) :
    l.getD i d = d := by
  rw [List.getD_eq_getElem?_getD, List.getElem?_eq_none h]
  rfl

/-- Indexing zipWith inside both ranges applies the function to the
corresponding elements. -/
theorem getD_zipWith_lt {α β γ : Type} (f : α → β → γ) (a : List α) (b : List β) {i : ℕ}
    (ha : i < a.length) (hb : i < b.length) (d : γ) (da : α) (db : β) :
    (List.zipWith f a b).getD i d = f (a.getD i da) (b.getD i db) := by
  rw [List.getD_eq_getElem?_getD, List.getD_eq_getElem?_getD, List.getD_eq_getElem?_getD,
      List.getElem?_zipWith, List.getElem?_eq_getElem ha, List.getElem?_eq_getElem hb]
  rfl

/-- Pixel access outside the bounds of the batch returns the default pixel. -/
theorem npixAt_out {t : NBatch} {b h w : ℕ}
    (hout : t.length ≤ b ∨ (t.getD b []).length ≤ h ∨
      ((t.getD b []).getD h []).length ≤ w) :
    npixAt t b h w = (0, 0, 0) := by
  unfold npixAt
  rcases hout with hb | hh | hw
  · rw [getD_ge hb, @getD_ge (List NPix) [] h (Nat.zero_le h) [],
      @getD_ge NPix [] w (Nat.zero_le w) (0, 0, 0)]
  · rw [getD_ge hh, @getD_ge NPix [] w (Nat.zero_le w) (0, 0, 0)]
  · rw [getD_ge hw]

/-- In-range pixel access through an elementwise pixel map applies the pixel
function. -/
theorem npixAt_map3 (f : NPix → NPix) (t : NBatch) {b h w : ℕ}
    (hb : b < t.length) (hh : h < (t.getD b []).length)
    (hw : w < ((t.getD b []).getD h []).length) :
    npixAt (t.map (fun im => im.map (fun row => row.map f))) b h w =
      f (npixAt t b h w) := by
  unfold npixAt
  rw [getD_map_lt (fun im => im.map (fun row => row.map f)) t hb [] []]
  rw [getD_map_lt (fun row => row.map f) (t.getD b []) hh [] []]
  exact getD_map_lt f ((t.getD b []).getD h []) hw (0, 0, 0) (0, 0, 0)

/-- The (h, w) entry of colors_to_dimensions is the list of per-color match
indicators for the pixel at (h, w). -/
theorem colors_to_dimensions_getD (image : NImage) (colors : List NPix) {h w : ℕ}
    (hh : h < image.length) (hw : w < (image.getD h []).length) :
    ((colors_to_dimensions image colors).getD h []).getD w [] =
      colors.map (fun col => if pixAt image h w = col then (1 : ℚ) else 0) := by
  simp only [colors_to_dimensions]
  rw [getD_map_lt _ _ (by simpa using hh) _ 0, getD_range_lt hh,
      getD_map_lt _ _ (by simpa using hw) _ 0, getD_range_lt hw, List.map_map]
  refine List.map_congr_left (fun col _ => ?_)
  simp only [Function.comp]
  rw [getD_map_lt _ _ hh _ [], getD_map_lt _ _ hw _ (0, 0, 0)]
  rfl

/-- C2: for an image of shape (H, W) with 3 integer channels per pixel and an
ordered list of colors, colors_to_dimensions has shape (H, W, len(colors));
channel c at a pixel is 1.0 exactly when the pixel equals colors[c] and 0.0
otherwise; a pixel matching no configured color has all channels 0.0. -/
theorem colors_to_dimensions_spec (image : NImage) (colors : List NPix) (H W : ℕ)
    (hH : image.length = H) (hW : ∀ row ∈ image, row.length = W) :
    ((colors_to_dimensions image colors).length = H ∧
      ∀ hrow ∈ colors_to_dimensions image colors, hrow.length = W ∧
        ∀ e ∈ hrow, e.length = colors.length) ∧
    (∀ h w c : ℕ, h < H → w < W → c < colors.length →
      (((colors_to_dimensions image colors).getD h []).getD w []).getD c 0 =
        if pixAt image h w = colors.getD c (0, 0, 0) then 1 else 0) ∧
    (∀ h w : ℕ, h < H → w < W → (∀ col ∈ colors, pixAt image h w ≠ col) →
      ∀ x ∈ ((colors_to_dimensions image colors).getD h []).getD w [], x = 0) := by
  have rowlen : ∀ {h : ℕ}, h < image.length → (image.getD h []).length = W :=
    fun hh => hW _ (getD_mem hh [])
  refine ⟨⟨by simp [colors_to_dimensions, hH], ?_⟩, ?_, ?_⟩
  · intro hrow hmem
    simp only [colors_to_dimensions, List.mem_map, List.mem_range] at hmem
    obtain ⟨h, hh, rfl⟩ := hmem
    refine ⟨by simp only [List.length_map, List.length_range]; exact rowlen hh, ?_⟩
    intro e he
    simp only [List.mem_map, List.mem_range] at he
    obtain ⟨w, _, rfl⟩ := he
    simp
  · intro h w c hhH hwW hc
    have hh : h < image.length := by omega
    have hw : w < (image.getD h []).length := by rw [rowlen hh]; exact hwW
    rw [colors_to_dimensions_getD _ _ hh hw, getD_map_lt _ _ hc _ (0, 0, 0)]
  · intro h w hhH hwW hnone x hx
    have hh : h < image.length := by omega
    have hw : w < (image.getD h []).length := by rw [rowlen hh]; exact hwW
    rw [colors_to_dimensions_getD _ _ hh hw] at hx
    simp only [List.mem_map] at hx
    obtain ⟨col, hcol, rfl⟩ := hx
    exact if_neg (hnone col hcol)

/-- Witness for C2 at a concrete 1-by-2 image and two colors. -/
theorem colors_to_dimensions_spec_witness :
    ((colors_to_dimensions [[(255, 0, 0), (0, 255, 0)]] [(255, 0, 0), (0, 0, 255)]).length = 1 ∧
      ∀ hrow ∈ colors_to_dimensions [[(255, 0, 0), (0, 255, 0)]] [(255, 0, 0), (0, 0, 255)],
        hrow.length = 2 ∧ ∀ e ∈ hrow, e.length = [((255 : ℕ), (0 : ℕ), (0 : ℕ)), (0, 0, 255)].length) ∧
    (∀ h w c : ℕ, h < 1 → w < 2 → c < [((255 : ℕ), (0 : ℕ), (0 : ℕ)), (0, 0, 255)].length →
      (((colors_to_dimensions [[(255, 0, 0), (0, 255, 0)]] [(255, 0, 0), (0, 0, 255)]).getD h []).getD w []).getD c 0 =
        if pixAt [[(255, 0, 0), (0, 255, 0)]] h w =
            [((255 : ℕ), (0 : ℕ), (0 : ℕ)), (0, 0, 255)].getD c (0, 0, 0) then 1 else 0) ∧
    (∀ h w : ℕ, h < 1 → w < 2 →
      (∀ col ∈ [((255 : ℕ), (0 : ℕ), (0 : ℕ)), (0, 0, 255)],
        pixAt [[(255, 0, 0), (0, 255, 0)]] h w ≠ col) →
      ∀ x ∈ ((colors_to_dimensions [[(255, 0, 0), (0, 255, 0)]] [(255, 0, 0), (0, 0, 255)]).getD h []).getD w [],
        x = 0) :=
  colors_to_dimensions_spec [[(255, 0, 0), (0, 255, 0)]] [(255, 0, 0), (0, 0, 255)] 1 2
    rfl (by decide)

/-- C10: replace_black_with_white_color leaves every pixel that is not
exactly (0, 0, 0) unchanged. -/
theorem replace_black_with_white_color_frame (t : NBatch) (b h w : ℕ)
    (hne : npixAt t b h w ≠ (0, 0, 0)) :
    npixAt (replace_black_with_white_color t) b h w = npixAt t b h w := by
  by_cases hb : b < t.length
  · by_cases hh : h < (t.getD b []).length
    · by_cases hw : w < ((t.getD b []).getD h []).length
      · unfold replace_black_with_white_color
        rw [npixAt_map3 _ _ hb hh hw]
        exact if_neg hne
      · exact absurd (npixAt_out (Or.inr (Or.inr (le_of_not_lt hw)))) hne
    · exact absurd (npixAt_out (Or.inr (Or.inl (le_of_not_lt hh)))) hne
  · exact absurd (npixAt_out (Or.inl (le_of_not_lt hb))) hne

/-- Witness for C10 at a concrete non-black pixel. -/
theorem replace_black_with_white_color_frame_witness :
    npixAt [[[(5, 0, 0)]]] 0 0 0 ≠ (0, 0, 0) ∧
    npixAt (replace_black_with_white_color [[[(5, 0, 0)]]]) 0 0 0 =
      npixAt [[[(5, 0, 0)]]] 0 0 0 :=
  ⟨by decide, replace_black_with_white_color_frame [[[(5, 0, 0)]]] 0 0 0 (by decide)⟩

/-- Adding the zero pixel on the left is the identity. -/
theorem addQPix_zero_left (p : QPix) : addQPix (0, 0, 0) p = p := by
  obtain ⟨a, b, c⟩ := p
  simp [addQPix]

/-- addQBatch preserves the batch shape. -/
theorem addQBatch_hasShape {a b : QBatch} {B H W : ℕ}
    (ha : batchHasShape a B H W) (hb : batchHasShape b B H W) :
    batchHasShape (addQBatch a b) B H W := by
  obtain ⟨haL, haI⟩ := ha
  obtain ⟨hbL, hbI⟩ := hb
  refine ⟨by simp [addQBatch, haL, hbL], ?_⟩
  intro i hi
  have h1 : (addQBatch a b).getD i [] =
      List.zipWith (List.zipWith addQPix) (a.getD i []) (b.getD i []) :=
    getD_zipWith_lt _ _ _ (haL ▸ hi) (hbL ▸ hi) [] [] []
  rw [h1]
  obtain ⟨haH, haW⟩ := haI i hi
  obtain ⟨hbH, hbW⟩ := hbI i hi
  refine ⟨by rw [List.length_zipWith, haH, hbH]; exact min_self H, ?_⟩
  intro h hh
  rw [getD_zipWith_lt _ _ _ (haH ▸ hh) (hbH ▸ hh) [] [] [],
      List.length_zipWith, haW h hh, hbW h hh]
  exact min_self W

/-- In-range pixel access distributes over addQBatch. -/
theorem qpixAt_addQBatch {a b : QBatch} {B H W : ℕ}
    (ha : batchHasShape a B H W) (hb : batchHasShape b B H W)
    {i h w : ℕ} (hi : i < B) (hh : h < H) (hw : w < W) :
    qpixAt (addQBatch a b) i h w = addQPix (qpixAt a i h w) (qpixAt b i h w) := by
  unfold qpixAt addQBatch
  rw [getD_zipWith_lt _ _ _ (ha.1 ▸ hi) (hb.1 ▸ hi) [] [] [],
      getD_zipWith_lt _ _ _ ((ha.2 i hi).1 ▸ hh) ((hb.2 i hi).1 ▸ hh) [] [] [],
      getD_zipWith_lt _ _ _ (((ha.2 i hi).2 h hh) ▸ hw) (((hb.2 i hi).2 h hh) ▸ hw)
        (0, 0, 0) (0, 0, 0) (0, 0, 0)]

/-- Folding addQBatch over same-shape batches preserves the shape. -/
theorem foldl_addQBatch_hasShape {x : QBatch} {xs : List QBatch} {B H W : ℕ}
    (hx : batchHasShape x B H W) (hxs : ∀ y ∈ xs, batchHasShape y B H W) :
    batchHasShape (xs.foldl addQBatch x) B H W := by
  induction xs generalizing x with
  | nil => exact hx
  | cons y ys ih =>
    exact ih (addQBatch_hasShape hx (hxs y (by simp)))
      (fun z hz => hxs z (by simp [hz]))

/-- In-range pixel access distributes over a fold of addQBatch. -/
theorem qpixAt_foldl_addQBatch {x : QBatch} {xs : List QBatch} {B H W : ℕ}
    (hx : batchHasShape x B H W) (hxs : ∀ y ∈ xs, batchHasShape y B H W)
    {i h w : ℕ} (hi : i < B) (hh : h < H) (hw : w < W) :
    qpixAt (xs.foldl addQBatch x) i h w =
      xs.foldl (fun acc im => addQPix acc (qpixAt im i h w)) (qpixAt x i h w) := by
  induction xs generalizing x with
  | nil => rfl
  | cons y ys ih =>
    simp only [List.foldl_cons]
    rw [ih (addQBatch_hasShape hx (hxs y (by simp))) (fun z hz => hxs z (by simp [hz])),
        qpixAt_addQBatch hx (hxs y (by simp)) hi hh hw]

/-- The sum of two all-zero batches is the all-zero batch. -/
theorem addQBatch_zero (B H W : ℕ) :
    addQBatch (zeroQBatch B H W) (zeroQBatch B H W) = zeroQBatch B H W := by
  simp [addQBatch, zeroQBatch, List.zipWith_replicate, addQPix]

/-- Folding addQBatch over all-zero batches yields the all-zero batch. -/
theorem foldl_addQBatch_zero {xs : List QBatch} {B H W : ℕ}
    (hxs : ∀ y ∈ xs, y = zeroQBatch B H W) :
    xs.foldl addQBatch (zeroQBatch B H W) = zeroQBatch B H W := by
  induction xs with
  | nil => rfl
  | cons y ys ih =>
    rw [List.foldl_cons, hxs y (by simp), addQBatch_zero]
    exact ih (fun z hz => hxs z (by simp [hz]))

/-- Converting the zero float pixel yields the black uint8 pixel. -/
theorem convertPix_zero : convertPix (0, 0, 0) = (0, 0, 0) := by decide

/-- Converting the all-zero float batch yields the all-black uint8 batch. -/
theorem convert_image_zero (B H W : ℕ) :
    convert_image (zeroQBatch B H W) = constNBatch B H W (0, 0, 0) := by
  unfold convert_image zeroQBatch constNBatch
  rw [List.map_replicate, List.map_replicate, List.map_replicate, convertPix_zero]

/-- Replacing black with white on the all-black batch yields the all-white
batch. -/
theorem replace_black_const (B H W : ℕ) :
    replace_black_with_white_color (constNBatch B H W (0, 0, 0)) =
      constNBatch B H W (255, 255, 255) := by
  unfold replace_black_with_white_color constNBatch
  rw [List.map_replicate, List.map_replicate, List.map_replicate, if_pos rfl]

/-- In-range pixel access after replace_black_with_white_color: a pure black
pixel becomes white and any other pixel is unchanged. -/
theorem npixAt_replace_black (t : NBatch) {b h w : ℕ}
    (hb : b < t.length) (hh : h < (t.getD b []).length)
    (hw : w < ((t.getD b []).getD h []).length) :
    npixAt (replace_black_with_white_color t) b h w =
      if npixAt t b h w = (0, 0, 0) then (255, 255, 255) else npixAt t b h w := by
  unfold replace_black_with_white_color
  rw [npixAt_map3 _ _ hb hh hw]

/-- C5: combine_image sums the weighted images elementwise (additive), then
converts the sum to a uint8 image; with replace_black_with_white set it
applies replace_black_with_white_color to the result, so every resulting
pure-black pixel becomes white and every other pixel is unchanged; an
all-zero-weighted input yields pure white with the flag set and pure black
with the flag unset. -/
theorem combine_image_spec (imgs : List QBatch) (B H W : ℕ)
    (hne : imgs ≠ []) (hsh : ∀ img ∈ imgs, batchHasShape img B H W) :
    (∃ s, reduce1 addQBatch imgs = some s ∧
      combine_image imgs false = some (convert_image s) ∧
      combine_image imgs true =
        some (replace_black_with_white_color (convert_image s)) ∧
      (∀ b h w : ℕ, b < B → h < H → w < W →
        qpixAt s b h w = (imgs.map (fun im => qpixAt im b h w)).foldl addQPix (0, 0, 0)) ∧
      (∀ b h w : ℕ, b < B → h < H → w < W →
        npixAt (replace_black_with_white_color (convert_image s)) b h w =
          if npixAt (convert_image s) b h w = (0, 0, 0) then (255, 255, 255)
          else npixAt (convert_image s) b h w)) ∧
    ((∀ img ∈ imgs, img = zeroQBatch B H W) →
      combine_image imgs true = some (constNBatch B H W (255, 255, 255)) ∧
      combine_image imgs false = some (constNBatch B H W (0, 0, 0))) := by
  obtain ⟨x, xs, rfl⟩ : ∃ x xs, imgs = x :: xs := by
    cases imgs with
    | nil => exact absurd rfl hne
    | cons a l => exact ⟨a, l, rfl⟩
  have hshape : batchHasShape (xs.foldl addQBatch x) B H W :=
    foldl_addQBatch_hasShape (hsh x (by simp)) (fun z hz => hsh z (by simp [hz]))
  constructor
  · refine ⟨xs.foldl addQBatch x, rfl, rfl, rfl, ?_, ?_⟩
    · intro b h w hb hh hw
      rw [qpixAt_foldl_addQBatch (hsh x (by simp)) (fun z hz => hsh z (by simp [hz]))
          hb hh hw]
      rw [List.map_cons, List.foldl_cons, addQPix_zero_left, List.foldl_map]
    · intro b h w hb hh hw
      have hsl : b < (xs.foldl addQBatch x).length := by
        rw [hshape.1]
        exact hb
      have hhl : h < ((xs.foldl addQBatch x).getD b []).length := by
        rw [(hshape.2 b hb).1]
        exact hh
      have hwl : w < (((xs.foldl addQBatch x).getD b []).getD h []).length := by
        rw [(hshape.2 b hb).2 h hh]
        exact hw
      have e1 : (convert_image (xs.foldl addQBatch x)).getD b [] =
          ((xs.foldl addQBatch x).getD b []).map (fun row => row.map convertPix) :=
        getD_map_lt _ _ hsl [] []
      have c1 : b < (convert_image (xs.foldl addQBatch x)).length := by
        simpa [convert_image] using hsl
      have c2 : h < ((convert_image (xs.foldl addQBatch x)).getD b []).length := by
        rw [e1]
        simpa using hhl
      have e2 : ((convert_image (xs.foldl addQBatch x)).getD b []).getD h [] =
          (((xs.foldl addQBatch x).getD b []).getD h []).map convertPix := by
        rw [e1]
        exact getD_map_lt _ _ hhl [] []
      have c3 : w < (((convert_image (xs.foldl addQBatch x)).getD b []).getD h []).length := by
        rw [e2]
        simpa using hwl
      exact npixAt_replace_black _ c1 c2 c3
  · intro hz
    have hs : xs.foldl addQBatch x = zeroQBatch B H W := by
      rw [hz x (by simp)]
      exact foldl_addQBatch_zero (fun z hz2 => hz z (by simp [hz2]))
    constructor
    · show some (replace_black_with_white_color
        (convert_image (xs.foldl addQBatch x))) = _
      rw [hs, convert_image_zero, replace_black_const]
    · show some (convert_image (xs.foldl addQBatch x)) = _
      rw [hs, convert_image_zero]

/-- Witness for C5 at a single all-zero 1-by-1-by-1 weighted image. -/
theorem combine_image_spec_witness :
    (∃ s, reduce1 addQBatch [zeroQBatch 1 1 1] = some s ∧
      combine_image [zeroQBatch 1 1 1] false = some (convert_image s) ∧
      combine_image [zeroQBatch 1 1 1] true =
        some (replace_black_with_white_color (convert_image s)) ∧
      (∀ b h w : ℕ, b < 1 → h < 1 → w < 1 →
        qpixAt s b h w =
          ([zeroQBatch 1 1 1].map (fun im => qpixAt im b h w)).foldl addQPix (0, 0, 0)) ∧
      (∀ b h w : ℕ, b < 1 → h < 1 → w < 1 →
        npixAt (replace_black_with_white_color (convert_image s)) b h w =
          if npixAt (convert_image s) b h w = (0, 0, 0) then (255, 255, 255)
          else npixAt (convert_image s) b h w)) ∧
    ((∀ img ∈ [zeroQBatch 1 1 1], img = zeroQBatch 1 1 1) →
      combine_image [zeroQBatch 1 1 1] true = some (constNBatch 1 1 1 (255, 255, 255)) ∧
      combine_image [zeroQBatch 1 1 1] false = some (constNBatch 1 1 1 (0, 0, 0))) :=
  combine_image_spec [zeroQBatch 1 1 1] 1 1 1 (by decide) (by decide)

/-- C7: in the visualization assembler the targets_combined and
outputs_combined composites are built via combine_image with
replace_black_with_white False: each stored composite is exactly the uint8
conversion of the elementwise sum of the weighted per-dimension images, with
no black-to-white remapping applied. -/
theorem add_model_summary_images_combined (image_tensor : QBatch)
    (annotation_tensor : NBatch) (sep pred : CBatch) (colors : List NPix)
    (labels : List (Option String)) :
    ("targets_combined",
      combine_image (batch_dimensions_to_colors_list sep colors) false) ∈
        add_model_summary_images_with_colors image_tensor annotation_tensor
          sep pred colors labels ∧
    ("outputs_combined",
      combine_image (batch_dimensions_to_colors_list pred colors) false) ∈
        add_model_summary_images_with_colors image_tensor annotation_tensor
          sep pred colors labels ∧
    (∀ (bis : List QBatch) (s : QBatch), reduce1 addQBatch bis = some s →
      combine_image bis false = some (convert_image s)) := by
  refine ⟨?_, ?_, ?_⟩
  · simp [add_model_summary_images_with_colors]
  · simp [add_model_summary_images_with_colors]
  · intro bis s hs
    cases bis with
    | nil => cases hs
    | cons x xs =>
      obtain rfl : xs.foldl addQBatch x = s := by simpa [reduce1] using hs
      rfl

/-- Witness for C7 at concrete one-channel tensors and one color. -/
theorem add_model_summary_images_combined_witness :
    ("targets_combined",
      combine_image (batch_dimensions_to_colors_list [[[[1]]]] [(255, 0, 0)]) false) ∈
        add_model_summary_images_with_colors [] [] [[[[1]]]] [[[[0]]]]
          [(255, 0, 0)] [some "a"] ∧
    reduce1 addQBatch [zeroQBatch 1 1 1] = some (zeroQBatch 1 1 1) ∧
    combine_image [zeroQBatch 1 1 1] false = some (convert_image (zeroQBatch 1 1 1)) :=
  ⟨(add_model_summary_images_combined [] [] [[[[1]]]] [[[[0]]]] [(255, 0, 0)]
      [some "a"]).1,
   rfl,
   (add_model_summary_images_combined [] [] [[[[1]]]] [[[[0]]]] [(255, 0, 0)]
      [some "a"]).2.2 [zeroQBatch 1 1 1] (zeroQBatch 1 1 1) rfl⟩

/-- Counterexample to C3 as stated: with metric_values = [None, 0.75] the
second value is formattable on its own, yet the TypeError raised while
formatting the first value aborts the try block, so the output shows N/A for
both fields.  Substitution is therefore not independent per field. -/
theorem format_metric_values_not_independent :
    format_metric_values (some [none, some (3 / 4)]) = "N/A, N/A" ∧
    subscript (some [none, some (3 / 4)]) 1 >>= fmt3 = Except.ok "0.750" := by
  constructor <;> rfl

/-- C3 (amended): format_metric_values is total and always produces a
two-field string; a failure on the second field keeps the first field
formatted, but a failure on the first field leaves both fields as "N/A"
because the try block aborts. -/
theorem format_metric_values_spec (mv : Option (List MetricValue)) :
    (∀ e : PyErr, subscript mv 0 >>= fmt3 = .error e →
      format_metric_values mv = "N/A" ++ ", " ++ "N/A") ∧
    (∀ s0 : String, subscript mv 0 >>= fmt3 = .ok s0 →
      ∀ e : PyErr, subscript mv 1 >>= fmt3 = .error e →
        format_metric_values mv = s0 ++ ", " ++ "N/A") ∧
    (∀ s0 s1 : String, subscript mv 0 >>= fmt3 = .ok s0 →
      subscript mv 1 >>= fmt3 = .ok s1 →
        format_metric_values mv = s0 ++ ", " ++ s1) := by
  refine ⟨?_, ?_, ?_⟩
  · intro e h0
    simp only [format_metric_values, h0]
  · intro s0 h0 e h1
    simp only [format_metric_values, h0, h1]
  · intro s0 s1 h0 h1
    simp only [format_metric_values, h0, h1]

/-- Witness for the amended C3 at metric_values = [0.5, None]. -/
theorem format_metric_values_spec_witness :
    format_metric_values (some [some (1 / 2), none]) = "0.500" ++ ", " ++ "N/A" :=
  (format_metric_values_spec (some [some (1 / 2), none])).2.1 "0.500" rfl
    PyErr.typeError rfl

/-- C4: the three documented examples of format_metric_values. -/
theorem format_metric_values_examples :
    format_metric_values (some []) = "N/A, N/A" ∧
    format_metric_values (some [some (0.1234 : ℚ)]) = "0.123, N/A" ∧
    format_metric_values (some [some (0.5 : ℚ), some (0.75 : ℚ)]) = "0.500, 0.750" := by
  refine ⟨rfl, rfl, rfl⟩

/-- Counterexample to C1 as stated: in EVALUATE mode build_graph passes
num_epochs = None (because is_training includes EVALUATE), not 2, and the
reader still yields a record at index 2, the start of a third pass over a
one-record dataset, so EVALUATE-mode reading is not bounded to 2 passes. -/
theorem build_graph_evaluate_not_bounded :
    (build_graph_reader_config GraphMode.EVALUATE).num_epochs = none ∧
    (build_graph_reader_config GraphMode.EVALUATE).num_epochs ≠ some 2 ∧
    read_examples_yield ["r"] (build_graph_reader_config GraphMode.EVALUATE).num_epochs 2 =
      some "r" := by
  refine ⟨rfl, by decide, rfl⟩

/-- C1 (amended): with nonempty data_paths the reader is shuffled exactly in
TRAIN mode; it repeats infinitely in TRAIN and in EVALUATE mode, and is
bounded to exactly 2 passes only in PREDICT mode. -/
theorem build_graph_reader_config_spec (mode : GraphMode) :
    ((build_graph_reader_config mode).shuffle = (mode == GraphMode.TRAIN)) ∧
    ((build_graph_reader_config mode).num_epochs =
      if mode = GraphMode.TRAIN ∨ mode = GraphMode.EVALUATE then none else some 2) ∧
    (∀ data : List String, data ≠ [] →
      ((mode = GraphMode.TRAIN ∨ mode = GraphMode.EVALUATE) →
        ∀ i : ℕ,
          (read_examples_yield data (build_graph_reader_config mode).num_epochs i).isSome) ∧
      (mode = GraphMode.PREDICT →
        ∀ i : ℕ,
          (read_examples_yield data (build_graph_reader_config mode).num_epochs i).isSome ↔
            i < 2 * data.length)) := by
  have hsome : ∀ (data : List String), data ≠ [] → ∀ i : ℕ,
      (data.get? (i % data.length)).isSome := by
    intro data hne i
    rw [List.get?_eq_getElem?]
    simp [List.getElem?_eq_getElem (Nat.mod_lt _ (List.length_pos.2 hne))]
  refine ⟨?_, ?_, ?_⟩
  · cases mode <;> rfl
  · cases mode <;> simp [build_graph_reader_config]
  · intro data hne
    constructor
    · intro hm i
      rcases hm with rfl | rfl <;>
        simpa [read_examples_yield, build_graph_reader_config] using hsome data hne i
    · intro hm i
      subst hm
      show (read_examples_yield data (some 2) i).isSome ↔ _
      unfold read_examples_yield
      by_cases hi : i < 2 * data.length
      · simpa [hi] using hsome data hne i
      · simp [hi]

/-- Witness for the amended C1: in PREDICT mode over a one-record dataset,
yield 4 lies past the 2-pass bound. -/
theorem build_graph_reader_config_spec_witness :
    (read_examples_yield ["x"] (build_graph_reader_config GraphMode.PREDICT).num_epochs 4).isSome ↔
      4 < 2 * (["x"] : List String).length :=
  (((build_graph_reader_config_spec GraphMode.PREDICT).2.2 ["x"] (by decide)).2 rfl) 4

/-- C6: the serialized example schema has exactly the four configured fields;
an example carrying both image fields parses successfully with the uri fields
defaulting to the empty string, while an example missing a required image
field is a fatal parse error that propagates as an error value rather than
being skipped or recovered. -/
theorem parse_single_example_schema :
    (∀ i1 a1 : String,
      parse_single_example [("input_image", i1), ("annotation_image", a1)] feature_map =
        .ok [("input_uri", ""), ("annotation_uri", ""), ("input_image", i1),
          ("annotation_image", a1)]) ∧
    (∀ ex : List (String × String), lookupA "input_image" ex = none →
      parse_single_example ex feature_map = .error "input_image") ∧
    (∀ ex : List (String × String), lookupA "annotation_image" ex = none →
      lookupA "input_image" ex ≠ none →
      parse_single_example ex feature_map = .error "annotation_image") := by
  refine ⟨?_, ?_, ?_⟩
  · intro i1 a1
    rfl
  · intro ex h
    rcases h1 : lookupA "input_uri" ex with _ | v1 <;>
      rcases h2 : lookupA "annotation_uri" ex with _ | v2 <;>
      simp [parse_single_example, feature_map, h1, h2, h, Except.map]
  · intro ex h hne
    obtain ⟨v, hv⟩ : ∃ v, lookupA "input_image" ex = some v := by
      cases hx : lookupA "input_image" ex with
      | none => exact absurd hx hne
      | some v => exact ⟨v, rfl⟩
    rcases h1 : lookupA "input_uri" ex with _ | v1 <;>
      rcases h2 : lookupA "annotation_uri" ex with _ | v2 <;>
      simp [parse_single_example, feature_map, h1, h2, h, hv, Except.map]

/-- Witness for C6: a complete example parses with defaulted uris; an example
missing input_image fails with a propagated error naming the field. -/
theorem parse_single_example_schema_witness :
    parse_single_example [("input_image", "PNG1"), ("annotation_image", "PNG2")] feature_map =
      .ok [("input_uri", ""), ("annotation_uri", ""), ("input_image", "PNG1"),
        ("annotation_image", "PNG2")] ∧
    parse_single_example [("annotation_image", "PNG2")] feature_map =
      .error "input_image" :=
  ⟨parse_single_example_schema.1 "PNG1" "PNG2",
   parse_single_example_schema.2.1 [("annotation_image", "PNG2")] (by decide)⟩

/-- The tuple order is transitive. -/
theorem lexLe_trans (a b c : NPix) (h1 : lexLe a b = true) (h2 : lexLe b c = true) :
    lexLe a c = true := by
  have p1 : lexLeP a b := of_decide_eq_true h1
  have p2 : lexLeP b c := of_decide_eq_true h2
  apply decide_eq_true
  obtain ⟨a1, a2, a3⟩ := a
  obtain ⟨b1, b2, b3⟩ := b
  obtain ⟨c1, c2, c3⟩ := c
  unfold lexLeP at p1 p2 ⊢
  dsimp only at p1 p2 ⊢
  omega

/-- The tuple order is total. -/
theorem lexLe_total (a b : NPix) : (lexLe a b || lexLe b a) = true := by
  rcases Decidable.em (lexLeP a b) with h | h
  · simp [lexLe, h]
  · have hba : lexLeP b a := by
      obtain ⟨a1, a2, a3⟩ := a
      obtain ⟨b1, b2, b3⟩ := b
      unfold lexLeP at h ⊢
      dsimp only at h ⊢
      omega
    simp [lexLe, hba]

/-- Association list lookup is invariant under permutation when the keys are
unique, as they are for the contents of a Python dict. -/
theorem lookupA_eq_of_perm {κ α : Type} [DecidableEq κ] {l1 l2 : List (κ × α)}
    (hp : l1.Perm l2) (hn : (l1.map Prod.fst).Nodup) (k : κ) :
    lookupA k l1 = lookupA k l2 := by
  induction hp with
  | nil => rfl
  | cons x p ih =>
    rw [List.map_cons, List.nodup_cons] at hn
    simp only [lookupA]
    by_cases hx : x.1 = k
    · simp [hx]
    · simp only [hx, if_false]
      exact ih hn.2
  | swap x y l =>
    rw [List.map_cons, List.map_cons, List.nodup_cons] at hn
    have hxy : y.1 ≠ x.1 := fun he => hn.1 (by simp [he])
    simp only [lookupA]
    by_cases hx : x.1 = k
    · by_cases hy : y.1 = k
      · exact absurd (hy.trans hx.symm) hxy
      · simp [hx, hy]
    · by_cases hy : y.1 = k
      · simp [hx, hy]
      · simp [hx, hy]
  | trans p1 p2 ih1 ih2 =>
    have hn2 : _ := ((p1.map Prod.fst).nodup_iff).1 hn
    rw [ih1 hn, ih2 hn2]

/-- Sorting the key multiset of a permuted list gives the same sequence. -/
theorem mergeSort_keys_eq {l1 l2 : List NPix} (hp : l1.Perm l2) :
    l1.mergeSort lexLe = l2.mergeSort lexLe :=
  List.eq_of_perm_of_sorted
    (((List.mergeSort_perm l1 lexLe).trans hp).trans (List.mergeSort_perm l2 lexLe).symm)
    (List.sorted_mergeSort lexLe_trans lexLe_total l1)
    (List.sorted_mergeSort lexLe_trans lexLe_total l2)

/-- C8: dimension ordering is deterministic.  Construction from any two
iteration orders of the same color map and label map dicts yields identical
dimension_colors and dimension_labels sequences; the key sequence assigning
dimension index c to the c-th key is sorted in numeric RGB tuple order and
covers indices 0 to n-1 contiguously (both output sequences have one entry
per color map key). -/
theorem model_init_dimensions_deterministic
    (cm1 cm2 : List (NPix × NPix)) (lm1 lm2 : List (NPix × String))
    (hcp : cm1.Perm cm2) (hcn : (cm1.map Prod.fst).Nodup)
    (hlp : lm1.Perm lm2) (hln : (lm1.map Prod.fst).Nodup) :
    model_init_dimensions cm1 lm1 = model_init_dimensions cm2 lm2 ∧
    List.Sorted lexLeP ((cm1.map Prod.fst).mergeSort lexLe) ∧
    (model_init_dimensions cm1 lm1).1.length = cm1.length ∧
    (model_init_dimensions cm1 lm1).2.length = cm1.length := by
  have hkeys : (cm1.map Prod.fst).mergeSort lexLe = (cm2.map Prod.fst).mergeSort lexLe :=
    mergeSort_keys_eq (hcp.map Prod.fst)
  refine ⟨?_, ?_, ?_, ?_⟩
  · have h1 : ((cm1.map Prod.fst).mergeSort lexLe).map
          (fun k => (lookupA k cm1).getD (0, 0, 0)) =
        ((cm1.map Prod.fst).mergeSort lexLe).map
          (fun k => (lookupA k cm2).getD (0, 0, 0)) :=
      List.map_congr_left (fun k _ => by rw [lookupA_eq_of_perm hcp hcn k])
    have h2 : ((cm1.map Prod.fst).mergeSort lexLe).map (fun k => lookupA k lm1) =
        ((cm1.map Prod.fst).mergeSort lexLe).map (fun k => lookupA k lm2) :=
      List.map_congr_left (fun k _ => by rw [lookupA_eq_of_perm hlp hln k])
    simp only [model_init_dimensions]
    rw [← hkeys, h1, h2]
  · exact (List.sorted_mergeSort lexLe_trans lexLe_total (cm1.map Prod.fst)).imp
      (fun h => of_decide_eq_true h)
  · unfold model_init_dimensions
    simp [List.length_mergeSort]
  · unfold model_init_dimensions
    simp [List.length_mergeSort]

/-- Witness for C8 at a two-entry color map given in two iteration orders. -/
theorem model_init_dimensions_deterministic_witness :
    model_init_dimensions [((0, 0, 0), (255, 0, 0)), ((5, 5, 5), (0, 255, 0))]
        [((0, 0, 0), "bg"), ((5, 5, 5), "fg")] =
      model_init_dimensions [((5, 5, 5), (0, 255, 0)), ((0, 0, 0), (255, 0, 0))]
        [((5, 5, 5), "fg"), ((0, 0, 0), "bg")] ∧
    List.Sorted lexLeP
      (([((0, 0, 0), (255, 0, 0)), ((5, 5, 5), (0, 255, 0))].map Prod.fst).mergeSort lexLe) ∧
    (model_init_dimensions [((0, 0, 0), (255, 0, 0)), ((5, 5, 5), (0, 255, 0))]
        [((0, 0, 0), "bg"), ((5, 5, 5), "fg")]).1.length =
      ([((0, 0, 0), (255, 0, 0)), ((5, 5, 5), (0, 255, 0))] : List (NPix × NPix)).length ∧
    (model_init_dimensions [((0, 0, 0), (255, 0, 0)), ((5, 5, 5), (0, 255, 0))]
        [((0, 0, 0), "bg"), ((5, 5, 5), "fg")]).2.length =
      ([((0, 0, 0), (255, 0, 0)), ((5, 5, 5), (0, 255, 0))] : List (NPix × NPix)).length :=
  model_init_dimensions_deterministic
    [((0, 0, 0), (255, 0, 0)), ((5, 5, 5), (0, 255, 0))]
    [((5, 5, 5), (0, 255, 0)), ((0, 0, 0), (255, 0, 0))]
    [((0, 0, 0), "bg"), ((5, 5, 5), "fg")]
    [((5, 5, 5), "fg"), ((0, 0, 0), "bg")]
    (by decide) (by decide) (by decide) (by decide)

/-- Batching lockstep for tf_train_batch: position i of batch k of every one
of the five batched tensors comes from the single item at stream position
k * batch_size + i. -/
theorem tf_train_batch_get {α β : Type} (items : List (PerExampleTensors α β))
    (batch_size k i : ℕ) (hk : k < items.length / batch_size) (hi : i < batch_size) :
    ∃ t : PerExampleTensors α β,
      items[k * batch_size + i]? = some t ∧
      ((tf_train_batch items batch_size).getD k ([], [], [], [], [])).1[i]? =
        some t.input_uri ∧
      ((tf_train_batch items batch_size).getD k ([], [], [], [], [])).2.1[i]? =
        some t.annotation_uri ∧
      ((tf_train_batch items batch_size).getD k ([], [], [], [], [])).2.2.1[i]? =
        some t.image_tensor ∧
      ((tf_train_batch items batch_size).getD k ([], [], [], [], [])).2.2.2.1[i]? =
        some t.annotation_tensor ∧
      ((tf_train_batch items batch_size).getD k ([], [], [], [], [])).2.2.2.2[i]? =
        some t.separate_channel_annotation_tensor := by
  have hidx : k * batch_size + i < items.length := by
    have h1 : (k + 1) * batch_size ≤ items.length :=
      calc (k + 1) * batch_size ≤ (items.length / batch_size) * batch_size :=
            Nat.mul_le_mul_right batch_size hk
        _ ≤ items.length := Nat.div_mul_le_self items.length batch_size
    calc k * batch_size + i < k * batch_size + batch_size := Nat.add_lt_add_left hi _
      _ = (k + 1) * batch_size := by ring
      _ ≤ items.length := h1
  refine ⟨items.get ⟨k * batch_size + i, hidx⟩, List.getElem?_eq_getElem hidx, ?_⟩
  have hbatch : (tf_train_batch items batch_size).getD k ([], [], [], [], []) =
      (let chunk := (items.drop (k * batch_size)).take batch_size
       (chunk.map (fun t => t.input_uri),
        chunk.map (fun t => t.annotation_uri),
        chunk.map (fun t => t.image_tensor),
        chunk.map (fun t => t.annotation_tensor),
        chunk.map (fun t => t.separate_channel_annotation_tensor))) := by
    unfold tf_train_batch
    rw [getD_map_lt _ _ (by simpa using hk) _ 0, getD_range_lt hk]
  have hchunk : ((items.drop (k * batch_size)).take batch_size)[i]? =
      some (items.get ⟨k * batch_size + i, hidx⟩) := by
    rw [List.getElem?_take, if_pos hi, List.getElem?_drop,
        List.getElem?_eq_getElem hidx]
    rfl
  rw [hbatch]
  refine ⟨?_, ?_, ?_, ?_, ?_⟩ <;>
    · show (List.map _ ((items.drop (k * batch_size)).take batch_size))[i]? = _
      rw [List.getElem?_map, hchunk]
      rfl

/-- C9: batching in build_graph is synchronized across all five per-example
tensors: for every batch and every position i within it, the i-th element of
each of the five batched tensors is the corresponding per-example tensor of
the same source record, the one at stream position k * batch_size + i. -/
theorem build_graph_batches_synchronized (decode_png : String → NImage)
    (colors : List NPix) (records : List ParsedExample) (batch_size k i : ℕ)
    (hk : k < records.length / batch_size) (hi : i < batch_size) :
    ∃ r : ParsedExample,
      records[k * batch_size + i]? = some r ∧
      ((build_graph_batches_with_colors decode_png colors records batch_size).getD k
        ([], [], [], [], [])).1[i]? = some r.input_uri ∧
      ((build_graph_batches_with_colors decode_png colors records batch_size).getD k
        ([], [], [], [], [])).2.1[i]? = some r.annotation_uri ∧
      ((build_graph_batches_with_colors decode_png colors records batch_size).getD k
        ([], [], [], [], [])).2.2.1[i]? =
        some (convert_image_to_float
          (resize_image_with_crop_or_pad (decode_png r.input_image) 256 256)) ∧
      ((build_graph_batches_with_colors decode_png colors records batch_size).getD k
        ([], [], [], [], [])).2.2.2.1[i]? =
        some (resize_image_with_crop_or_pad (decode_png r.annotation_image) 256 256) ∧
      ((build_graph_batches_with_colors decode_png colors records batch_size).getD k
        ([], [], [], [], [])).2.2.2.2[i]? =
        some (colors_to_dimensions
          (resize_image_with_crop_or_pad (decode_png r.annotation_image) 256 256)
          colors) := by
  obtain ⟨t, ht, h1, h2, h3, h4, h5⟩ :=
    tf_train_batch_get (records.map (process_example_with_colors decode_png colors))
      batch_size k i (by rw [List.length_map]; exact hk) hi
  rw [List.getElem?_map] at ht
  cases hr : records[k * batch_size + i]? with
  | none =>
    rw [hr] at ht
    cases ht
  | some r =>
    rw [hr] at ht
    obtain rfl : process_example_with_colors decode_png colors r = t :=
      Option.some.inj ht
    exact ⟨r, rfl, h1, h2, h3, h4, h5⟩

/-- Witness for C9 with one record, batch size 1, batch 0, position 0. -/
theorem build_graph_batches_synchronized_witness :
    ∃ r : ParsedExample,
      ([⟨"u", "a", "pi", "pa"⟩] : List ParsedExample)[0 * 1 + 0]? = some r ∧
      ((build_graph_batches_with_colors (fun _ => [[(0, 0, 0)]]) [(255, 0, 0)]
        [⟨"u", "a", "pi", "pa"⟩] 1).getD 0 ([], [], [], [], [])).1[0]? =
        some r.input_uri ∧
      ((build_graph_batches_with_colors (fun _ => [[(0, 0, 0)]]) [(255, 0, 0)]
        [⟨"u", "a", "pi", "pa"⟩] 1).getD 0 ([], [], [], [], [])).2.1[0]? =
        some r.annotation_uri ∧
      ((build_graph_batches_with_colors (fun _ => [[(0, 0, 0)]]) [(255, 0, 0)]
        [⟨"u", "a", "pi", "pa"⟩] 1).getD 0 ([], [], [], [], [])).2.2.1[0]? =
        some (convert_image_to_float
          (resize_image_with_crop_or_pad ((fun _ => [[(0, 0, 0)]]) r.input_image) 256 256)) ∧
      ((build_graph_batches_with_colors (fun _ => [[(0, 0, 0)]]) [(255, 0, 0)]
        [⟨"u", "a", "pi", "pa"⟩] 1).getD 0 ([], [], [], [], [])).2.2.2.1[0]? =
        some (resize_image_with_crop_or_pad ((fun _ => [[(0, 0, 0)]]) r.annotation_image)
          256 256) ∧
      ((build_graph_batches_with_colors (fun _ => [[(0, 0, 0)]]) [(255, 0, 0)]
        [⟨"u", "a", "pi", "pa"⟩] 1).getD 0 ([], [], [], [], [])).2.2.2.2[0]? =
        some (colors_to_dimensions
          (resize_image_with_crop_or_pad ((fun _ => [[(0, 0, 0)]]) r.annotation_image)
            256 256) [(255, 0, 0)]) :=
  build_graph_batches_synchronized (fun _ => [[(0, 0, 0)]]) [(255, 0, 0)]
    [⟨"u", "a", "pi", "pa"⟩] 1 0 0 (by decide) (by decide)

end Pix2Pix
